import Mathlib

/-!
Verification of the `hash_table` C library core.

A shallow embedding of `src/lib/hash_table.c` and `src/lib/hash_table.h`
(the open-addressing hash table with int and string keys), together with
theorems settling the specification claims about it.

Modelling conventions:
* `size_t` arithmetic is `Nat` with explicit `% 2^64` where wraparound can
  occur; `uint32_t` arithmetic carries explicit `% 2^32`.
* C strings are modelled as the list of their bytes before the terminating
  NUL (`List Nat`).
* A bucket (`ht_element*` cell) is `Option ht_element`: `none` is an
  unoccupied, `calloc`-zeroed slot (`occupied == 0`), `some e` an occupied
  one (`occupied == 1`).
* The `ht_key` struct is a tagged union.  Stored keys are modelled as a
  `key_cell` carrying the union's two read views explicitly (`as_int` and
  `as_str`), because `check_new_element_hash` in the source reads a union
  view without consulting the stored type tag.  A view that was never
  written through holds the implementation-defined reinterpretation of the
  bytes written through the other member; where the model has to produce
  such a cell it uses a fixed placeholder (`0`, `none`) and no theorem
  below depends on that placeholder.
* Allocation results (`malloc`/`calloc`/`strdup`) are oracle `Bool`
  parameters: `true` = the allocation succeeds.
* `double`/`float` load-factor arithmetic is modelled exactly over `ℚ`.
  For the capacities the claims exercise (powers of two well below `2^52`)
  the C `double` computations are exact, so the comparisons agree.
-/

/-- The `key_type` enum of `hash_table.h` (`HT_INT_KEY = 0`, `HT_STR_KEY = 1`). -/
inductive key_tag where
  | intK
  | strK
deriving DecidableEq, Repr

/-- Logical content of a `ht_key` as written through its active union
member: an `int` key or a string key (bytes before the NUL). -/
inductive ht_key where
  | intKey (k : Int)
  | strKey (s : List Nat)
deriving DecidableEq, Repr

/-- Tag of a logical key, mirroring `ht_key.type`. -/
def htKeyTag : ht_key → key_tag
  | .intKey _ => .intK
  | .strKey _ => .strK

/-- A stored `ht_key` struct: the type tag plus the union's two read
views.  `as_int` is what `key.data.as_int` reads; `as_str` is what
`key.data.as_str` reads (`none` = NULL pointer).  For a cell written as an
int key the `as_str` view (and symmetrically) is the implementation-defined
reinterpretation of the written bytes; the source's `check_new_element_hash`
reads such cross views, which is why both views are carried. -/
structure key_cell where
  tag : key_tag
  intView : Int
  strView : Option (List Nat)
deriving DecidableEq, Repr

/-- The logical key stored in a cell: the view selected by its tag.
A NULL string pointer is read as the empty string (dereferencing it in C
would be undefined; no theorem depends on this case). -/
def logicalKey (c : key_cell) : ht_key :=
  match c.tag with
  | .intK => .intKey c.intView
  | .strK => .strKey (c.strView.getD [])

/-- Writing a caller-supplied `ht_key` into a cell (struct assignment in
the source).  The inactive view is the implementation-defined
reinterpretation of the active member's bytes; the model uses a fixed
placeholder for it. -/
def toCell : ht_key → key_cell
  | .intKey k => { tag := .intK, intView := k, strView := none }
  | .strKey s => { tag := .strK, intView := 0, strView := some s }

/-- An occupied bucket of `ht_add_pair`'s element layout: the stored key
and the value bytes behind the `void* value` pointer (`none` = the value
pointer is NULL, as left behind by a failed `malloc`).  The `value_size`
field is the length of the byte list.  The `occupied` flag is carried by
the surrounding `Option`. -/
structure ht_element where
  key : key_cell
  value : Option (List Nat)
deriving DecidableEq, Repr

/-- The `hash_table` struct (`hash_table.h`, lines 196–209).  The
`first_element_hash_index` / `last_element_hash_index` fields are omitted:
the source only ever assigns them on a by-value copy inside
`boundary_index_check`, so they have no observable behavior (and
`ht_create` leaves them uninitialized). -/
structure hash_table where
  elements : List (Option ht_element)
  capacity : Nat
  size : Nat
  max_load_factor : ℚ
deriving DecidableEq, Repr

/-- `#define HT_INITIAL_CAPACITY 16`. -/
def HT_INITIAL_CAPACITY : Nat := 16

/-- `#define HT_MAX_DEFAULT_LOAD_FACTOR 0.75`. -/
def HT_MAX_DEFAULT_LOAD_FACTOR : ℚ := 3 / 4

/-- `#define HT_MIN_DEFAULT_LOAD_FACTOR 0.25`. -/
def HT_MIN_DEFAULT_LOAD_FACTOR : ℚ := 1 / 4

/-- The `(uint32_t)key` conversion of C: the key's value modulo `2^32`
(two's complement for negatives). -/
def uint32ofInt (k : Int) : Nat := (k % (2 ^ 32 : Int)).toNat

/-- `hash_int` (`hash_table.c`, lines 520–526): Knuth multiplicative hash.
`k * MULTIPLIER` is `uint32_t` arithmetic, hence the `% 2^32`; the result
is then zero-extended to `size_t`. -/
def hash_int (key : Int) : Nat :=
  (uint32ofInt key * 2654435769) % 2 ^ 32

/-- `hash_str` (`hash_table.c`, lines 537–545): DJB2 over the bytes of the
string, in `size_t` (64-bit) arithmetic.  Each step is the source's
`hash = ((hash << 5) + hash) + c`. -/
def hash_str_loop (h : Nat) : List Nat → Nat
  | [] => h
  | c :: cs => hash_str_loop (((h <<< 5) + h + c) % 2 ^ 64) cs

/-- `hash_str` proper: the loop started at the magic value 5381. -/
def hash_str (key_string : List Nat) : Nat :=
  hash_str_loop 5381 key_string

/-- `hash_the_key` (`hash_table.c`, lines 548–571) on a well-typed key:
dispatch on the key type.  (The unknown-type default branch returns 0; it
is unreachable for a tagged key.) -/
def hash_the_key : ht_key → Nat
  | .intKey k => hash_int k
  | .strKey s => hash_str s

/-- `hash_the_key` as `ht_insert` calls it: with a caller-supplied raw
type tag (`key_type` is an `int` in C, so any value can arrive).  Tag 0
dereferences the pointer as `int*`, tag 1 as `char**`, anything else hits
the default branch and yields 0.  A tag that contradicts the pointee's
actual type would dereference through the wrong type in C (unspecified
bytes); the model returns 0 for that case, and every claim below uses
matching tags. -/
def hash_the_key_at (tag : Int) (k : ht_key) : Nat :=
  if tag = 0 then
    match k with
    | .intKey i => hash_int i
    | .strKey _ => 0
  else if tag = 1 then
    match k with
    | .strKey s => hash_str s
    | .intKey _ => 0
  else 0

/-- The hashing switch inside `resize_ht` (lines 772–786): hash the view
selected by the stored tag.  A NULL `as_str` would be dereferenced by
`hash_str` in C (undefined); modelled as hashing the empty string. -/
def hash_the_key_cell (c : key_cell) : Nat :=
  match c.tag with
  | .intK => hash_int c.intView
  | .strK => hash_str (c.strView.getD [])

/-! ## Probe sequences and bucket-array helpers -/

/-- The linear-probe index sequence of `ht_add_pair`:
`start % cap, (start+1) % cap, …` for `n` steps (the source steps with
`index = (index + 1) % table->capacity`). -/
def probeSeqMod (cap start n : Nat) : List Nat :=
  (List.range n).map fun i => (start + i) % cap

/-- The linear-probe index sequence of `resize_ht`'s rehash loop, which
steps with `new_index = (new_index + 1) & (new_capacity - 1)`. -/
def probeSeqMask (cap start n : Nat) : List Nat :=
  (List.range n).map fun i => (start + i) &&& (cap - 1)

/-- First free (unoccupied) slot along the mod-stepping probe sequence,
probing at most `cap` slots.  A `while (occupied) index = (index+1) % cap`
loop either stops at the first free probe or revisits `start` after `cap`
steps and loops forever; `none` models that divergence. -/
def findFreeIdxMod (elems : List (Option ht_element)) (cap start : Nat) : Option Nat :=
  (probeSeqMod cap start cap).find? fun j => (elems.getD j none).isNone

/-- First free slot along the mask-stepping probe sequence (`resize_ht`'s
`while (new_elements[new_index].occupied)` loop); `none` models the
loop's divergence on a full array. -/
def findFreeIdxMask (elems : List (Option ht_element)) (cap start : Nat) : Option Nat :=
  (probeSeqMask cap start cap).find? fun j => (elems.getD j none).isNone

/-- Number of occupied slots of a bucket array. -/
def countSome (l : List (Option ht_element)) : Nat := (l.filterMap id).length

/-- The logical (key, value) pair held by an occupied slot. -/
def pairOf (e : ht_element) : ht_key × Option (List Nat) :=
  (logicalKey e.key, e.value)

/-- The multiset of logical (key, value) pairs stored in a bucket array. -/
def entries (l : List (Option ht_element)) : Multiset (ht_key × Option (List Nat)) :=
  ((l.filterMap id).map pairOf : List _)

/-! ## `check_ht_pair_input` and `check_new_element_hash` -/

/-- `check_ht_pair_input` (`hash_table.c`, lines 476–505).  `keyNull` /
`valueNull` model the pointer arguments being NULL; the tags are the raw
`int` values behind the `key_type` / `value_type` enums.
`key_type_check` accepts exactly `HT_INT_KEY = 0` and `HT_STR_KEY = 1`;
`value_type_check` accepts the range `HT_U_INT8_VAL = 0` …
`HT_ARRAY_VAL = 21`. -/
def check_ht_pair_input (keyNull : Bool) (key_t : Int) (valueNull : Bool) (val_t : Int) : Bool :=
  if ¬(key_t = 0 ∨ key_t = 1) then false
  else if ¬(0 ≤ val_t ∧ val_t ≤ 21) then false
  else if keyNull then false
  else if valueNull then false
  else true

/-- The `hash_check_status` enum of `hash_table.c` (lines 143–149). -/
inductive hash_check_status where
  | NEW_PAIR_NEW_HASH
  | NEW_PAIR_REPEATED_HASH
  | OLD_PAIR_NEW_VALUE
deriving DecidableEq, Repr

/-- `check_new_element_hash` (`hash_table.c`, lines 579–625).  The probe
key arrives as `(void* key, key_type curr_key_type)`; `probeInt` is what
`*(int*)key` reads for an int probe.  For a string probe the source casts
the pointer itself (`(const char*)key`) without the dereference
`hash_the_key` performs, so the compared bytes are whatever sits at the
`key` address reinterpreted as a string; `probeStrBytes` is those bytes
(`none` = NULL).  Crucially, the stored slot's `key.type` tag is never
examined: the switch is on the probe's type only, and the comparisons read
the probe-typed view of the stored union directly. -/
def check_new_element_hash (table : hash_table) (current_hash : Nat)
    (curr_key_type : key_tag) (probeInt : Int) (probeStrBytes : Option (List Nat)) :
    hash_check_status :=
  let h := current_hash &&& (table.capacity - 1)
  match table.elements.getD h none with
  | none => .NEW_PAIR_NEW_HASH
  | some curr_element =>
    match curr_key_type with
    | .intK =>
      if curr_element.key.intView = probeInt then .OLD_PAIR_NEW_VALUE
      else .NEW_PAIR_REPEATED_HASH
    | .strK =>
      match curr_element.key.strView, probeStrBytes with
      | some s, some p =>
        if s = p then .OLD_PAIR_NEW_VALUE else .NEW_PAIR_REPEATED_HASH
      | _, _ => .NEW_PAIR_REPEATED_HASH

/-! ## `resize_ht` and `ht_capacity_check` -/

/-- The `capacity_check_call_type` enum (`hash_table.c`, lines 664–669). -/
inductive capacity_check_call_type where
  | ADD
  | DELETE
deriving DecidableEq, Repr

/-- Outcome of a `resize_ht` call.  `processExit` is the `exit(1)` on a
failed `strdup` during the rehash loop; `diverged` is the rehash probe
loop never finding an empty slot (the C loop would spin forever). -/
inductive resize_outcome where
  | skippedTooBig
  | skippedTooSmall
  | allocFailure
  | processExit
  | diverged
  | completed
deriving DecidableEq, Repr

/-- The cell placed into the new array for one moved entry
(`hash_table.c`, lines 791–817).  Non-string keys are moved by struct
assignment (both views copied); a string key is re-`strdup`ed, so its
string view is preserved while the fresh pointer's `as_int`
reinterpretation is implementation-defined (placeholder 0). -/
def placedCell (c : key_cell) : key_cell :=
  match c.tag with
  | .intK => c
  | .strK => { tag := .strK, intView := 0, strView := c.strView }

/-- Reason the rehash move loop stopped early. -/
inductive move_fail where
  | strdupFail
  | noFreeSlot
deriving DecidableEq, Repr

/-- The rehash loop of `resize_ht` (lines 761–819): visit the old slots in
array order; for each occupied one, recompute its index from its key with
the *new* capacity mask, probe the new array for the first empty slot, and
place the entry there.  `strdupOk = false` makes the `strdup` of the first
string key fail, which the source answers with `exit(1)`. -/
def moveEntries (strdupOk : Bool) (new_capacity : Nat) :
    List (Option ht_element) → List (Option ht_element) →
    Except move_fail (List (Option ht_element))
  | [], new_elements => .ok new_elements
  | none :: rest, new_elements => moveEntries strdupOk new_capacity rest new_elements
  | some old_element :: rest, new_elements =>
    if old_element.key.tag = .strK ∧ ¬strdupOk then .error .strdupFail
    else
      let start := hash_the_key_cell old_element.key &&& (new_capacity - 1)
      match findFreeIdxMask new_elements new_capacity start with
      | none => .error .noFreeSlot
      | some j =>
        moveEntries strdupOk new_capacity rest
          (new_elements.set j (some { old_element with key := placedCell old_element.key }))

/-- `resize_ht` (`hash_table.c`, lines 703–829).  `callocOk` is the
allocation of the new bucket array.  SIZE_MAX is `2^64 - 1`.  The NULL
table / NULL elements early returns guard states the model cannot
represent and are omitted.  On `completed` the old array is freed and the
table swapped to the new array and capacity; `size` is not touched. -/
def resize_ht (callocOk strdupOk : Bool) (table : hash_table)
    (check_call_type : capacity_check_call_type) : resize_outcome × hash_table :=
  if check_call_type = .ADD ∧ table.capacity > (2 ^ 64 - 1) / 2 then
    (.skippedTooBig, table)
  else if check_call_type = .DELETE ∧ table.capacity ≤ HT_INITIAL_CAPACITY then
    (.skippedTooSmall, table)
  else
    let new_capacity :=
      match check_call_type with
      | .ADD => table.capacity * 2
      | .DELETE => table.capacity / 2
    if ¬callocOk then (.allocFailure, table)
    else
      match moveEntries strdupOk new_capacity table.elements
          (List.replicate new_capacity none) with
      | .error .strdupFail => (.processExit, table)
      | .error .noFreeSlot => (.diverged, table)
      | .ok new_elements =>
        (.completed, { table with capacity := new_capacity, elements := new_elements })

/-- The kinds of heap release a `resize_ht` run could perform on the old
storage.  `oldElementsArray` is the single `free(old_elements)` the
source contains (line 822).  `oldStringKeyDup s` — freeing the old
`strdup`ed copy of a moved string key `s` — has no corresponding call
anywhere in `resize_ht`; the constructor exists so that the *absence* of
such a release can be stated. -/
inductive resize_free_call where
  | oldElementsArray
  | oldStringKeyDup (s : List Nat)
deriving DecidableEq, Repr

/-- The `free` calls a `resize_ht` run executes, following the source's
control flow: the guard returns, the calloc-failure return, the
`exit(1)` path and the diverging probe loop free nothing, and a run that
reaches past the move loop performs exactly `free(old_elements)`
(line 822) — the loop body itself contains `strdup` calls but no `free`,
so no `oldStringKeyDup` is ever emitted. -/
def resize_ht_free_calls (callocOk strdupOk : Bool) (table : hash_table)
    (check_call_type : capacity_check_call_type) : List resize_free_call :=
  match (resize_ht callocOk strdupOk table check_call_type).1 with
  | .completed => [.oldElementsArray]
  | _ => []

/-- `ht_capacity_check` (`hash_table.c`, lines 674–697).  The adder is
`+1.0` for `ADD` and `-1.0` for `DELETE`; the load factor with the new
element is `((double)size + adder) / capacity`, and `resize_ht` is invoked
whenever it is above `HT_MAX_DEFAULT_LOAD_FACTOR` *or* below
`HT_MIN_DEFAULT_LOAD_FACTOR` — with the same call type that triggered the
check.  The comparison is stated in the cross-multiplied integer form
`4 * (size + adder) > 3 * capacity` / `4 * (size + adder) < capacity`,
which `capacity_check_cond_exact` below proves equivalent to the exact
rational comparison for any positive capacity.  (The unknown-call-type
error branch is unreachable for the two-valued enum.  The function's
`bool` result is `true` on every representable path and is ignored by its
caller, so only the table is returned.) -/
def ht_capacity_check (callocOk strdupOk : Bool) (table : hash_table)
    (check_call_type : capacity_check_call_type) : hash_table :=
  let adder : Int := match check_call_type with | .ADD => 1 | .DELETE => -1
  if 4 * ((table.size : Int) + adder) > 3 * (table.capacity : Int) ∨
      4 * ((table.size : Int) + adder) < (table.capacity : Int) then
    (resize_ht callocOk strdupOk table check_call_type).2
  else table


/-! ## `ht_add_pair` -/

/-- How `ht_add_pair`'s collision loop (lines 1015–1071) treats one
candidate bucket: an empty slot exits the loop (fresh insert there); an
occupied slot whose stored `key.type` differs from the probe key's type
keeps probing; with equal types, equal logical values mean value
replacement and different values keep probing.  (A stored string key with
a NULL `as_str` would make the loop's unguarded `strcmp` undefined; the
model treats it as not-equal, and no theorem depends on that case.) -/
inductive slot_class where
  | fresh
  | collision
  | replace
deriving DecidableEq, Repr

/-- The per-bucket classification performed by `ht_add_pair`'s loop. -/
def classifySlot (slot : Option ht_element) (key : ht_key) : slot_class :=
  match slot with
  | none => .fresh
  | some element =>
    if element.key.tag ≠ htKeyTag key then .collision
    else
      match key with
      | .intKey i => if element.key.intView = i then .replace else .collision
      | .strKey s => if element.key.strView = some s then .replace else .collision

/-- Result of running `ht_add_pair`'s collision loop to its first
non-collision bucket. -/
inductive add_probe where
  | freshAt (j : Nat)
  | replaceAt (j : Nat)
  | diverged
deriving DecidableEq, Repr

/-- `ht_add_pair`'s collision loop: walk the mod-stepping probe sequence
from `start` and stop at the first bucket that is not a collision.  All
`cap` probes being collisions models the C loop cycling forever. -/
def probeForAdd (elems : List (Option ht_element)) (cap : Nat) (key : ht_key)
    (start : Nat) : add_probe :=
  match (probeSeqMod cap start cap).find?
      (fun j => classifySlot (elems.getD j none) key ≠ .collision) with
  | none => .diverged
  | some j =>
    match classifySlot (elems.getD j none) key with
    | .fresh => .freshAt j
    | .replace => .replaceAt j
    | .collision => .diverged

/-- Outcome of a `ht_add_pair` call. -/
inductive add_outcome where
  | nullValue
  | done
  | valueAllocFailed
  | processExit
  | diverged
deriving DecidableEq, Repr

/-- `ht_add_pair` (`hash_table.c`, lines 921–1119).
Notes on fidelity:
* The two leading validation switches reference identifiers (`k_type`,
  `v_type`) that do not exist in the function's scope (copy-pasted from an
  old `ht_create`, per their error strings); they do not compile and are
  omitted.  The NULL-table guard states are not representable.
* `value` is the header's second `ht_value` layout `{void* ptr; size_t
  size;}`: `none` models a NULL `ptr` (rejected up front), `some v` the
  `size` bytes at `ptr`.
* The hashing switch calls `hash_int` / `hash_str` with a second
  `table->capacity` argument their definitions do not take (another
  non-compiling spot); the model uses the one-argument hash functions it
  actually defines, followed by the source's own `% table->capacity`.
* On a fresh insert the source increments `size`, then grows if
  `(float)size / capacity > table->max_load_factor` (calling `resize_ht`
  with one argument; modelled as an `ADD` resize, the only growth call),
  then recomputes the index with the *new* capacity and re-probes for the
  first empty slot.
* `mallocOk` is the `malloc(value.size)` for the stored value bytes: on
  failure the source returns leaving the slot's value pointer NULL.  The
  `strdup` of a string key on the fresh path is modelled as succeeding
  (its failure branch leaves a corrupt occupied slot no claim touches). -/
def ht_add_pair (callocOk strdupOk mallocOk : Bool) (table : hash_table)
    (key : ht_key) (value : Option (List Nat)) : add_outcome × hash_table :=
  match value with
  | none => (.nullValue, table)
  | some v =>
    let hash_value := hash_the_key key
    let index := hash_value % table.capacity
    match probeForAdd table.elements table.capacity key index with
    | .diverged => (.diverged, table)
    | .replaceAt j =>
      match table.elements.getD j none with
      | none => (.diverged, table)
      | some element =>
        if mallocOk then
          (.done, { table with elements := table.elements.set j (some { element with value := some v }) })
        else
          (.valueAllocFailed, { table with elements := table.elements.set j (some { element with value := none }) })
    | .freshAt j =>
      let t1 := { table with size := table.size + 1 }
      let load_factor : ℚ := (t1.size : ℚ) / (t1.capacity : ℚ)
      if load_factor > t1.max_load_factor then
        let r := resize_ht callocOk strdupOk t1 .ADD
        match r.1 with
        | .processExit => (.processExit, r.2)
        | .diverged => (.diverged, r.2)
        | _ =>
          let t2 := r.2
          match findFreeIdxMod t2.elements t2.capacity (hash_value % t2.capacity) with
          | none => (.diverged, t2)
          | some j2 =>
            let slot : Option ht_element :=
              some { key := toCell key, value := if mallocOk then some v else none }
            (if mallocOk then .done else .valueAllocFailed,
              { t2 with elements := t2.elements.set j2 slot })
      else
        let slot : Option ht_element :=
          some { key := toCell key, value := if mallocOk then some v else none }
        (if mallocOk then .done else .valueAllocFailed,
          { t1 with elements := t1.elements.set j slot })

/-! ## `ht_insert` -/

/-- The `pass_method` enum of `hash_table.h`. -/
inductive pass_method where
  | PASS_BY_REFERENCE
  | PASS_BY_COPY
deriving DecidableEq, Repr

/-- What a `ht_insert` call does up to the point its probe loop would
start. -/
structure insert_entry_result where
  returnedFalse : Bool
  table : hash_table
  probeStart : Option Nat
deriving DecidableEq, Repr

/-- `ht_insert` (`hash_table.c`, lines 153–470), modelled through its
guard, capacity check and initial index computation — the part of the
function the claims address.  Beyond that point the source does not
compile (it dereferences `void*` directly, assigns through `.` on struct
fields as if they were pointers, writes a `hash_index` field absent from
`ht_element`, updates `size` only on a by-value copy of the table, and
never sets `occupied`), so no behavior past `probeStart` is modelled.

Faithful points this model does capture:
* the argument guard `check_ht_pair_input` runs before anything mutates;
* `ht_capacity_check(table, ADD)` runs next and can resize the real table;
* the initial index is `hash_the_key(key, type) & (curr_ht.capacity - 1)`
  where `curr_ht` is a by-value snapshot of the table taken *before* the
  capacity check — so the mask uses the pre-resize capacity;
* a masked index of 0 is answered with a hash-operation error and
  `return false` before anything is written.
`key` is `none` for a NULL key pointer; `valueNull` models the value
pointer; the `_value_pass_method` argument is only consumed by the
unmodelled write block. -/
def ht_insert (callocOk strdupOk : Bool) (table : hash_table)
    (key : Option ht_key) (curr_key_type : Int)
    (valueNull : Bool) (curr_value_type : Int)
    (_value_pass_method : pass_method) : insert_entry_result :=
  if ¬check_ht_pair_input key.isNone curr_key_type valueNull curr_value_type then
    { returnedFalse := true, table := table, probeStart := none }
  else
    let curr_ht_capacity := table.capacity
    let table' := ht_capacity_check callocOk strdupOk table .ADD
    let tmp_hashed_key :=
      hash_the_key_at curr_key_type (key.getD (.intKey 0)) &&& (curr_ht_capacity - 1)
    if tmp_hashed_key = 0 then
      { returnedFalse := true, table := table', probeStart := none }
    else
      { returnedFalse := false, table := table', probeStart := some tmp_hashed_key }

/-! ## `ht_create` -/

/-- The table `ht_create` hands back on success: capacity 16, size 0,
`max_load_factor` 0.75, and a `calloc`-zeroed (all unoccupied) bucket
array of 16 slots. -/
def freshTable : hash_table :=
  { elements := List.replicate 16 none
    capacity := HT_INITIAL_CAPACITY
    size := 0
    max_load_factor := HT_MAX_DEFAULT_LOAD_FACTOR }

/-- `ht_create` (`hash_table.c`, lines 85–125).  `mallocOk` is the malloc
of the table record, `callocOk` the calloc of the element array;
`sizeofElem` is `sizeof(ht_element)` (a positive implementation constant),
used by the sanity check `capacity > SIZE_MAX / sizeof(ht_element)`.
`NULL` returns are `none`. -/
def ht_create (sizeofElem : Nat) (mallocOk callocOk : Bool) : Option hash_table :=
  if ¬mallocOk then none
  else if HT_INITIAL_CAPACITY = 0 ∨ HT_INITIAL_CAPACITY > (2 ^ 64 - 1) / sizeofElem then none
  else if ¬callocOk then none
  else some freshTable

/-! ## Concrete tables used by witnesses and counterexamples -/

/-- The target capacity a `resize_ht` call computes from the call type. -/
def resizeTarget (capacity : Nat) : capacity_check_call_type → Nat
  | .ADD => capacity * 2
  | .DELETE => capacity / 2

/-- Concrete table for the C7 artifacts: capacity 16, one occupied slot
holding a string key. -/
def tC7 : hash_table :=
  { elements := (List.replicate 16 none).set 5
      (some { key := toCell (.strKey [97, 98]), value := some [1] })
    capacity := 16
    size := 1
    max_load_factor := HT_MAX_DEFAULT_LOAD_FACTOR }

/-- Concrete table for the C5 witness: the int key 5 hashes to bucket 13
of a 16-slot table and sits there. -/
def tC5 : hash_table :=
  { elements := (List.replicate 16 none).set 13
      (some { key := toCell (.intKey 5), value := some [7] })
    capacity := 16
    size := 1
    max_load_factor := HT_MAX_DEFAULT_LOAD_FACTOR }

/-- Concrete table for the C6 witness and counterexample: capacity 16
with an int-keyed entry (slot 2) and a string-keyed entry (slot 5). -/
def tC6 : hash_table :=
  { elements := ((List.replicate 16 none).set 2
      (some { key := toCell (.intKey 3), value := some [1] })).set 5
      (some { key := toCell (.strKey [104, 105]), value := some [2] })
    capacity := 16
    size := 2
    max_load_factor := HT_MAX_DEFAULT_LOAD_FACTOR }

/-- Concrete table for the C3 counterexample: bucket 3 of a 16-slot table
is occupied by a *string* key whose `as_int` union view happens to read 5
(the low bytes of its stored pointer). -/
def tC3 : hash_table :=
  { elements := (List.replicate 16 none).set 3
      (some { key := { tag := .strK, intView := 5, strView := some [97] },
              value := some [1] })
    capacity := 16
    size := 1
    max_load_factor := HT_MAX_DEFAULT_LOAD_FACTOR }

/-- Cell for the C3 witness with an int key. -/
def eC3int : ht_element :=
  { key := toCell (.intKey 7), value := some [3] }

/-- Cell for the C3 witness with a string key (whose `as_int` view reads
7). -/
def eC3str : ht_element :=
  { key := { tag := .strK, intView := 7, strView := some [120] }, value := some [4] }

/-- Table for the C3 witness: `eC3str` sits in bucket 2. -/
def tC3w : hash_table :=
  { elements := (List.replicate 16 none).set 2 (some eC3str)
    capacity := 16
    size := 1
    max_load_factor := HT_MAX_DEFAULT_LOAD_FACTOR }

/-- An occupied slot holding the int key `k`, for building `tC4`. -/
def entC4 (k : Int) : Option ht_element :=
  some { key := toCell (.intKey k), value := some [0] }

/-- Concrete table for the C4 evidence: 12 int keys, each sitting in its
hash bucket (`hash_int k & 15 = 9*k mod 16`), size 12, capacity 16 — the
state right before the claim's own "13th insert triggers growth"
scenario. -/
def tC4 : hash_table :=
  { elements := [entC4 0, entC4 9, entC4 2, entC4 11, entC4 4, none, entC4 6, none,
      entC4 8, entC4 1, entC4 10, entC4 3, none, entC4 5, none, entC4 7]
    capacity := 16
    size := 12
    max_load_factor := HT_MAX_DEFAULT_LOAD_FACTOR }

/-! ## Helper lemmas about probe sequences and bucket arrays -/

/-- Every index produced by the mod-stepping probe sequence is in range. -/
theorem probeSeqMod_lt {cap start n j : Nat} (hc : 0 < cap)
    (hj : j ∈ probeSeqMod cap start n) : j < cap := by
  obtain ⟨i, _, rfl⟩ := List.mem_map.mp hj
  exact Nat.mod_lt _ hc

/-- A probe sequence of full length visits every index of the array:
linear probing with wraparound covers all residues in `cap` steps. -/
theorem probeSeqMod_mem {cap start : Nat} (hc : 0 < cap) {j : Nat} (hj : j < cap) :
    j ∈ probeSeqMod cap start cap := by
  have hs : start % cap < cap := Nat.mod_lt _ hc
  refine List.mem_map.mpr ⟨(cap + j - start % cap) % cap,
    List.mem_range.mpr (Nat.mod_lt _ hc), ?_⟩
  have h1 := (Nat.mod_modEq start cap).symm.add
    (Nat.mod_modEq (cap + j - start % cap) cap)
  have h2 : start % cap + (cap + j - start % cap) = cap + j := by omega
  rw [h2] at h1
  have h3 : (start + (cap + j - start % cap) % cap) % cap = (cap + j) % cap := h1
  rw [h3, Nat.add_mod_left, Nat.mod_eq_of_lt hj]

/-- For a power-of-two capacity the mask-stepping probe sequence of
`resize_ht` is the mod-stepping one. -/
theorem probeSeqMask_eq_probeSeqMod (m start n : Nat) :
    probeSeqMask (2 ^ m) start n = probeSeqMod (2 ^ m) start n := by
  unfold probeSeqMask probeSeqMod
  exact List.map_congr_left fun i _ => Nat.and_pow_two_sub_one_eq_mod _ m

/-- Hence the two free-slot searches agree for power-of-two capacities. -/
theorem findFreeIdxMask_eq_findFreeIdxMod (elems : List (Option ht_element))
    (m start : Nat) :
    findFreeIdxMask elems (2 ^ m) start = findFreeIdxMod elems (2 ^ m) start := by
  unfold findFreeIdxMask findFreeIdxMod
  rw [probeSeqMask_eq_probeSeqMod]

theorem countSome_nil : countSome [] = 0 := rfl

theorem countSome_cons_none (l : List (Option ht_element)) :
    countSome (none :: l) = countSome l := by
  simp [countSome, List.filterMap_cons]

theorem countSome_cons_some (e : ht_element) (l : List (Option ht_element)) :
    countSome (some e :: l) = countSome l + 1 := by
  simp [countSome, List.filterMap_cons]

/-- An array with fewer occupied slots than its length has a free slot. -/
theorem exists_none_of_countSome_lt :
    ∀ (l : List (Option ht_element)), countSome l < l.length →
      ∃ j, j < l.length ∧ l.getD j none = none := by
  intro l
  induction l with
  | nil => intro h; simp [countSome_nil] at h
  | cons x rest ih =>
    intro h
    cases x with
    | none => exact ⟨0, by simp, rfl⟩
    | some e =>
      rw [countSome_cons_some, List.length_cons] at h
      obtain ⟨j, hj, hfree⟩ := ih (Nat.lt_of_add_lt_add_right h)
      exact ⟨j + 1, by simpa using hj, hfree⟩

theorem countSome_le_length :
    ∀ (l : List (Option ht_element)), countSome l ≤ l.length := by
  intro l
  induction l with
  | nil => simp [countSome_nil]
  | cons x rest ih =>
    cases x with
    | none => rw [countSome_cons_none]; simpa using Nat.le_succ_of_le ih
    | some e => rw [countSome_cons_some]; simpa using ih

/-- The free-slot search succeeds on an array that is not full, and
returns a free in-range index. -/
theorem findFreeIdxMod_spec {elems : List (Option ht_element)} {cap start : Nat}
    (hc : 0 < cap) (hlen : elems.length = cap) (hcnt : countSome elems < cap) :
    ∃ j, findFreeIdxMod elems cap start = some j ∧ j < cap ∧
      elems.getD j none = none := by
  obtain ⟨j0, hj0, hfree0⟩ := exists_none_of_countSome_lt elems (by omega)
  have hmem : j0 ∈ probeSeqMod cap start cap := probeSeqMod_mem hc (hlen ▸ hj0)
  have hsome : (findFreeIdxMod elems cap start).isSome := by
    unfold findFreeIdxMod
    rw [List.find?_isSome]
    exact ⟨j0, hmem, Option.isNone_iff_eq_none.mpr hfree0⟩
  obtain ⟨j, hj⟩ := Option.isSome_iff_exists.mp hsome
  have hj' : (probeSeqMod cap start cap).find?
      (fun i => (elems.getD i none).isNone) = some j := hj
  refine ⟨j, hj, probeSeqMod_lt hc (List.mem_of_find?_eq_some hj'), ?_⟩
  have hp := List.find?_some hj'
  simpa using hp

theorem entries_nil : entries [] = 0 := rfl

theorem entries_cons_none (l : List (Option ht_element)) :
    entries (none :: l) = entries l := by
  simp [entries, List.filterMap_cons]

theorem entries_cons_some (e : ht_element) (l : List (Option ht_element)) :
    entries (some e :: l) = pairOf e ::ₘ entries l := by
  simp [entries, List.filterMap_cons]

theorem entries_replicate (n : Nat) : entries (List.replicate n none) = 0 := by
  induction n with
  | zero => rfl
  | succ k ih => rw [List.replicate_succ, entries_cons_none, ih]

theorem countSome_replicate (n : Nat) : countSome (List.replicate n none) = 0 := by
  induction n with
  | zero => rfl
  | succ k ih => rw [List.replicate_succ, countSome_cons_none, ih]

/-- Placing an entry into a free slot adds exactly its pair to the stored
multiset. -/
theorem entries_set_of_none :
    ∀ (l : List (Option ht_element)) (j : Nat) (e : ht_element),
      j < l.length → l.getD j none = none →
      entries (l.set j (some e)) = pairOf e ::ₘ entries l := by
  intro l
  induction l with
  | nil => intro j e hj _; simp at hj
  | cons x rest ih =>
    intro j e hj hfree
    cases j with
    | zero =>
      have hx : x = none := by simpa [List.getD] using hfree
      subst hx
      rw [List.set_cons_zero, entries_cons_some, entries_cons_none]
    | succ n =>
      rw [List.set_cons_succ]
      have hn : n < rest.length := by simpa using hj
      have hfree' : rest.getD n none = none := by simpa [List.getD] using hfree
      cases x with
      | none => rw [entries_cons_none, entries_cons_none, ih n e hn hfree']
      | some y =>
        rw [entries_cons_some, entries_cons_some, ih n e hn hfree',
          Multiset.cons_swap]

/-- Placing an entry into a free slot raises the occupied count by one. -/
theorem countSome_set_of_none :
    ∀ (l : List (Option ht_element)) (j : Nat) (e : ht_element),
      j < l.length → l.getD j none = none →
      countSome (l.set j (some e)) = countSome l + 1 := by
  intro l
  induction l with
  | nil => intro j e hj _; simp at hj
  | cons x rest ih =>
    intro j e hj hfree
    cases j with
    | zero =>
      have hx : x = none := by simpa [List.getD] using hfree
      subst hx
      rw [List.set_cons_zero, countSome_cons_some, countSome_cons_none]
    | succ n =>
      rw [List.set_cons_succ]
      have hn : n < rest.length := by simpa using hj
      have hfree' : rest.getD n none = none := by simpa [List.getD] using hfree
      cases x with
      | none => rw [countSome_cons_none, countSome_cons_none, ih n e hn hfree']
      | some y => rw [countSome_cons_some, countSome_cons_some, ih n e hn hfree']

/-- Re-duplicating a string key (or struct-copying a non-string one)
during a move preserves the logical (key, value) pair. -/
theorem pairOf_placed (e : ht_element) :
    pairOf { e with key := placedCell e.key } = pairOf e := by
  unfold pairOf placedCell logicalKey
  cases h : e.key.tag <;> simp [h]

/-- Invariant of `resize_ht`'s rehash move loop, for a power-of-two target
capacity and successful allocations: visiting the old slots in order, the
loop terminates and the new array ends up holding exactly the pairs of the
occupied old slots on top of what it already held. -/
theorem moveEntries_ok (m : Nat) :
    ∀ (olds acc : List (Option ht_element)),
      acc.length = 2 ^ m →
      countSome acc + countSome olds ≤ 2 ^ m →
      ∃ res, moveEntries true (2 ^ m) olds acc = .ok res ∧
        res.length = 2 ^ m ∧
        countSome res = countSome acc + countSome olds ∧
        entries res = entries olds + entries acc := by
  intro olds
  induction olds with
  | nil =>
    intro acc hlen hcnt
    exact ⟨acc, rfl, hlen, by simp [countSome_nil], by rw [entries_nil, zero_add]⟩
  | cons x rest ih =>
    intro acc hlen hcnt
    cases x with
    | none =>
      rw [countSome_cons_none] at hcnt
      obtain ⟨res, h1, h2, h3, h4⟩ := ih acc hlen hcnt
      refine ⟨res, ?_, h2, ?_, ?_⟩
      · simpa only [moveEntries] using h1
      · rwa [countSome_cons_none]
      · rwa [entries_cons_none]
    | some e =>
      rw [countSome_cons_some] at hcnt
      have hc2 : 0 < 2 ^ m := Nat.two_pow_pos m
      have hacc_lt : countSome acc < 2 ^ m := by omega
      obtain ⟨j, hfind, hjlt, hfree⟩ :=
        @findFreeIdxMod_spec acc (2 ^ m)
          (hash_the_key_cell e.key &&& (2 ^ m - 1)) hc2 hlen hacc_lt
      have hjlt' : j < acc.length := hlen ▸ hjlt
      obtain ⟨res, h1, h2, h3, h4⟩ :=
        ih (acc.set j (some { e with key := placedCell e.key }))
          (by rw [List.length_set, hlen])
          (by rw [countSome_set_of_none acc j _ hjlt' hfree]; omega)
      refine ⟨res, ?_, h2, ?_, ?_⟩
      · simp only [moveEntries, not_true, and_false, if_false,
          findFreeIdxMask_eq_findFreeIdxMod, hfind]
        exact h1
      · rw [countSome_cons_some, h3, countSome_set_of_none acc j _ hjlt' hfree]
        omega
      · rw [entries_cons_some, h4, entries_set_of_none acc j _ hjlt' hfree,
          pairOf_placed, Multiset.cons_add, Multiset.add_cons]


/-- A `resize_ht` run that completed performed exactly the single
`free(old_elements)` of the source's epilogue. -/
theorem resize_ht_free_calls_of_completed (callocOk strdupOk : Bool)
    (table : hash_table) (check_call_type : capacity_check_call_type)
    (t' : hash_table)
    (h : resize_ht callocOk strdupOk table check_call_type = (.completed, t')) :
    resize_ht_free_calls callocOk strdupOk table check_call_type =
      [.oldElementsArray] := by
  unfold resize_ht_free_calls
  rw [h]

/-- C6 (amended): a resize whose guards pass, whose allocations succeed
and whose entries fit into the target array visits the occupied old
slots in array order, rehashes each key with the new capacity, places
each entry at the first empty slot of its probe sequence in the new
array (string keys re-duplicated into fresh storage), and completes by
swapping the table to the new array and capacity — and the resulting
table holds exactly the same multiset of logical (key, value) pairs,
with the `size` field untouched.  The old duplicates of moved string
keys, however, are *not* freed: the complete list of `free` calls the
resize performs is `[free(old_elements)]`, so the old string copies
leak.  (The slot-order visit, the recomputed index and the
first-empty-slot placement are the definition of `resize_ht` /
`moveEntries`; this theorem adds completion, preservation, and the
free-call accounting.) -/
theorem C6_resize_preserves_pairs_leaks_old_strings (k : Nat) (table : hash_table)
    (check_call_type : capacity_check_call_type)
    (hcap : table.capacity = 2 ^ k)
    (hlen : table.elements.length = table.capacity)
    (hbig : ¬(check_call_type = .ADD ∧ table.capacity > (2 ^ 64 - 1) / 2))
    (hsmall : ¬(check_call_type = .DELETE ∧ table.capacity ≤ HT_INITIAL_CAPACITY))
    (hfit : countSome table.elements ≤ resizeTarget table.capacity check_call_type) :
    (∃ t', resize_ht true true table check_call_type = (.completed, t') ∧
      t'.capacity = resizeTarget table.capacity check_call_type ∧
      t'.size = table.size ∧
      t'.max_load_factor = table.max_load_factor ∧
      t'.elements.length = t'.capacity ∧
      entries t'.elements = entries table.elements) ∧
    resize_ht_free_calls true true table check_call_type = [.oldElementsArray] := by
  have main : ∃ t', resize_ht true true table check_call_type = (.completed, t') ∧
      t'.capacity = resizeTarget table.capacity check_call_type ∧
      t'.size = table.size ∧
      t'.max_load_factor = table.max_load_factor ∧
      t'.elements.length = t'.capacity ∧
      entries t'.elements = entries table.elements := by
    have hm : ∃ m, resizeTarget table.capacity check_call_type = 2 ^ m := by
      cases check_call_type with
      | ADD => exact ⟨k + 1, by rw [resizeTarget, hcap, pow_succ]⟩
      | DELETE =>
        have hgt : 16 < table.capacity := by
          by_contra hle
          exact hsmall ⟨rfl, by rw [HT_INITIAL_CAPACITY]; omega⟩
        have hk : 1 ≤ k := by
          by_contra hlt
          rw [hcap] at hgt
          have : k = 0 := by omega
          subst this
          simp at hgt
        refine ⟨k - 1, ?_⟩
        rw [resizeTarget, hcap]
        rcases Nat.exists_eq_add_of_le hk with ⟨d, rfl⟩
        rw [show 1 + d - 1 = d by omega, show 1 + d = d + 1 by omega, pow_succ,
          Nat.mul_div_cancel _ (by omega)]
    obtain ⟨m, hm⟩ := hm
    rw [hm] at hfit
    obtain ⟨res, hmv, hreslen, hrescnt, hresent⟩ :=
      moveEntries_ok m table.elements (List.replicate (2 ^ m) none)
        (by rw [List.length_replicate])
        (by rw [countSome_replicate]; omega)
    refine ⟨{ table with capacity := resizeTarget table.capacity check_call_type, elements := res },
      ?_, rfl, rfl, rfl, ?_, ?_⟩
    · cases check_call_type with
      | ADD =>
        have hm' : table.capacity * 2 = 2 ^ m := hm
        unfold resize_ht
        rw [if_neg hbig, if_neg (by simp)]
        simp only [not_true, if_false, hm', hmv]
        rw [hm]
      | DELETE =>
        have hm' : table.capacity / 2 = 2 ^ m := hm
        unfold resize_ht
        rw [if_neg (by simp), if_neg hsmall]
        simp only [not_true, if_false, hm', hmv]
        rw [hm]
    · rw [hm]
      exact hreslen
    · rw [hresent, entries_replicate, add_zero]
  refine ⟨main, ?_⟩
  obtain ⟨t', ht', -⟩ := main
  exact resize_ht_free_calls_of_completed true true table check_call_type t' ht'

/-- The DJB2 step `((hash << 5) + hash) + c` is `hash * 33 + c`, so the
source's loop is the specification's fold. -/
theorem hash_str_loop_eq_foldl :
    ∀ (s : List Nat) (h : Nat),
      hash_str_loop h s = s.foldl (fun h c => (h * 33 + c) % 2 ^ 64) h := by
  intro s
  induction s with
  | nil => intro h; rfl
  | cons c cs ih =>
    intro h
    rw [hash_str_loop, List.foldl_cons, ih]
    congr 1
    rw [Nat.shiftLeft_eq]
    ring_nf

/-- A `probeForAdd` that reports a replacement did find, at an in-range
index, an occupied slot classified `replace`. -/
theorem probeForAdd_replaceAt {elems : List (Option ht_element)} {cap : Nat}
    {key : ht_key} {start j : Nat} (hc : 0 < cap)
    (h : probeForAdd elems cap key start = .replaceAt j) :
    j < cap ∧ classifySlot (elems.getD j none) key = .replace := by
  unfold probeForAdd at h
  cases hf : (probeSeqMod cap start cap).find?
      (fun i => classifySlot (elems.getD i none) key ≠ .collision) with
  | none => rw [hf] at h; exact absurd h (by simp)
  | some j' =>
    rw [hf] at h
    have hjlt : j' < cap := probeSeqMod_lt hc (List.mem_of_find?_eq_some hf)
    cases hcls : classifySlot (elems.getD j' none) key with
    | fresh => simp only [hcls] at h; exact absurd h (by simp)
    | collision => simp only [hcls] at h; exact absurd h (by simp)
    | replace =>
      simp only [hcls, add_probe.replaceAt.injEq] at h
      subst h
      exact ⟨hjlt, hcls⟩

/-- A slot classified `replace` is occupied, holds a key of the probe
key's type, and its tag-selected view equals the probe key's value. -/
theorem classifySlot_replace {slot : Option ht_element} {key : ht_key}
    (h : classifySlot slot key = .replace) :
    ∃ e, slot = some e ∧ e.key.tag = htKeyTag key ∧ logicalKey e.key = key := by
  cases slot with
  | none => exact absurd h (by simp [classifySlot])
  | some e =>
    simp only [classifySlot] at h
    by_cases htag : e.key.tag = htKeyTag key
    · refine ⟨e, rfl, htag, ?_⟩
      rw [if_neg (by simp [htag])] at h
      cases key with
      | intKey i =>
        by_cases hv : e.key.intView = i
        · simp [logicalKey, htKeyTag, htag, hv]
        · simp [hv] at h
      | strKey s =>
        by_cases hv : e.key.strView = some s
        · simp [logicalKey, htKeyTag, htag, hv]
        · simp [hv] at h
    · rw [if_pos htag] at h
      exact absurd h (by simp)

/-- The load-factor comparison of `ht_capacity_check`, stated as the
source writes it (`(size + adder) / capacity` over exact rationals),
agrees with the cross-multiplied integer form used in the definition
whenever the capacity is positive.  For the power-of-two capacities below
`2^52` that actually occur, the C `double` computation is itself exact, so
both coincide with the source's comparison. -/
theorem capacity_check_cond_exact (size : Nat) (adder : Int) (capacity : Nat)
    (hc : 0 < capacity) :
    ((((size : ℚ) + (adder : ℚ)) / (capacity : ℚ) > HT_MAX_DEFAULT_LOAD_FACTOR) ↔
      4 * ((size : Int) + adder) > 3 * (capacity : Int)) ∧
    ((((size : ℚ) + (adder : ℚ)) / (capacity : ℚ) < HT_MIN_DEFAULT_LOAD_FACTOR) ↔
      4 * ((size : Int) + adder) < (capacity : Int)) := by
  have hcq : (0 : ℚ) < (capacity : ℚ) := by exact_mod_cast hc
  constructor
  · rw [HT_MAX_DEFAULT_LOAD_FACTOR, gt_iff_lt, div_lt_div_iff₀ (by norm_num) hcq]
    constructor
    · intro h
      have h2 : ((3 * (capacity : Int) : Int) : ℚ) < ((4 * ((size : Int) + adder) : Int) : ℚ) := by
        push_cast
        push_cast at h
        linarith
      exact_mod_cast h2
    · intro h
      have h2 : ((3 * (capacity : Int) : Int) : ℚ) < ((4 * ((size : Int) + adder) : Int) : ℚ) := by
        exact_mod_cast h
      push_cast at h2
      linarith
  · rw [HT_MIN_DEFAULT_LOAD_FACTOR, div_lt_div_iff₀ hcq (by norm_num)]
    constructor
    · intro h
      have h2 : ((4 * ((size : Int) + adder) : Int) : ℚ) < (((capacity : Int) : Int) : ℚ) := by
        push_cast
        push_cast at h
        linarith
      exact_mod_cast h2
    · intro h
      have h2 : ((4 * ((size : Int) + adder) : Int) : ℚ) < (((capacity : Int) : Int) : ℚ) := by
        exact_mod_cast h
      push_cast at h2
      linarith

/-! ## Claim theorems -/

/-- C1 (code_bug evidence): on the very first insert into a freshly
created table (size 0, capacity 16), `ht_capacity_check(table, ADD)`
already doubles the capacity to 32, even though
`(size + 1) / capacity = 1/16` is not greater than `max_load_factor`:
the check's `|| load < HT_MIN_DEFAULT_LOAD_FACTOR` disjunct fires on an
`ADD` call and triggers a growing `resize_ht`.  This contradicts the
claim that capacity is doubled if and only if
`(size + 1) / capacity > max_load_factor`, and it makes the claimed
"12 inserts, no resize" scenario unreachable through this code path. -/
theorem C1_capacity_check_grows_on_first_insert :
    freshTable.capacity = 16 ∧ freshTable.size = 0 ∧
    (ht_capacity_check true true freshTable .ADD).capacity = 32 ∧
    ¬(((freshTable.size : ℚ) + 1) / (freshTable.capacity : ℚ) >
        HT_MAX_DEFAULT_LOAD_FACTOR) := by
  refine ⟨rfl, rfl, by decide, ?_⟩
  have h := (capacity_check_cond_exact freshTable.size 1 freshTable.capacity
    (by decide)).1
  intro hgt
  have h2 : ((1 : Int) : ℚ) = (1 : ℚ) := by norm_num
  rw [h2] at h
  have := h.mp hgt
  revert this
  decide

/-- C2: the hash digest is a pure function of the key's logical value.
For an int key it is `(uint32)k * 2654435769` in 32-bit arithmetic
(2654435769 being the constant the source multiplies by), and for a
string key it is DJB2: start at 5381 and fold `digest * 33 + byte` over
the bytes of the string (in `size_t` arithmetic), case-sensitively —
the source's `((hash << 5) + hash) + c` step equals `hash * 33 + c`. -/
theorem C2_hash_digest_forms :
    (∀ k : Int, hash_the_key (.intKey k) = (uint32ofInt k * 2654435769) % 2 ^ 32) ∧
    (∀ s : List Nat,
      hash_the_key (.strKey s) = s.foldl (fun h c => (h * 33 + c) % 2 ^ 64) 5381) := by
  constructor
  · intro k; rfl
  · intro s
    exact hash_str_loop_eq_foldl s 5381

/-- C4 (code_bug evidence): `tC4` holds 12 entries in 16 slots, so the
13th insert requires growth (`13/16 > 0.75`).  `ht_insert` does run its
capacity check — which grows the table to 32 — *before* computing the
bucket index, but the index is masked with `curr_ht.capacity - 1` where
`curr_ht` is a snapshot taken before the check: for key 14 the probe
starts at `hash & 15 = 14`, not at the post-growth `hash & 31 = 30`.
The index used for probing is therefore computed with the pre-growth
capacity, contradicting the claim.  (`ht_add_pair`, by contrast, does
recompute its write index after a growth.) -/
theorem C4_insert_index_uses_pre_growth_capacity :
    (((tC4.size : ℚ) + 1) / (tC4.capacity : ℚ) > HT_MAX_DEFAULT_LOAD_FACTOR) ∧
    (ht_insert true true tC4 (some (.intKey 14)) 0 false 0
        .PASS_BY_COPY).table.capacity = 32 ∧
    (ht_insert true true tC4 (some (.intKey 14)) 0 false 0
        .PASS_BY_COPY).probeStart = some (hash_int 14 &&& (16 - 1)) ∧
    hash_int 14 &&& (16 - 1) = 14 ∧
    hash_int 14 &&& (32 - 1) = 30 := by
  refine ⟨?_, by decide, by decide, by decide, by decide⟩
  have h := (capacity_check_cond_exact tC4.size 1 tC4.capacity (by decide)).1
  have h2 : ((1 : Int) : ℚ) = (1 : ℚ) := by norm_num
  rw [h2] at h
  exact h.mpr (by decide)


/-- C7 counterexample: during a growing resize of a table that holds a
string key, a failed `strdup` makes `resize_ht` call `exit(1)` — the
process aborts while the old array has not yet been freed (the table
still points at it, unchanged), contradicting "the core never aborts the
process during a resize whose old array has not yet been freed". -/
theorem C7_counterexample_strdup_exit :
    (resize_ht true false tC7 .ADD).1 = .processExit ∧
    (resize_ht true false tC7 .ADD).2 = tC7 := by
  exact ⟨rfl, rfl⟩

/-- C7 (amended): if allocating the new bucket array fails, the resize is
aborted, the table is left exactly in its prior state with every entry
intact, and the allocation failure is reported.  (The part of the claim
this keeps; the strdup-failure `exit(1)` refutes the "never aborts"
part.) -/
theorem C7_alloc_failure_aborts_cleanly (strdupOk : Bool) (table : hash_table)
    (check_call_type : capacity_check_call_type)
    (hbig : ¬(check_call_type = .ADD ∧ table.capacity > (2 ^ 64 - 1) / 2))
    (hsmall : ¬(check_call_type = .DELETE ∧ table.capacity ≤ HT_INITIAL_CAPACITY)) :
    resize_ht false strdupOk table check_call_type = (.allocFailure, table) := by
  unfold resize_ht
  rw [if_neg hbig, if_neg hsmall]
  simp

/-- Witness for `C7_alloc_failure_aborts_cleanly` at a concrete input. -/
theorem C7_alloc_failure_witness :
    (¬(capacity_check_call_type.ADD = .ADD ∧ freshTable.capacity > (2 ^ 64 - 1) / 2)) ∧
    (¬(capacity_check_call_type.ADD = .DELETE ∧ freshTable.capacity ≤ HT_INITIAL_CAPACITY)) ∧
    resize_ht false true freshTable .ADD = (.allocFailure, freshTable) :=
  ⟨by decide, by decide,
    C7_alloc_failure_aborts_cleanly true freshTable .ADD (by decide) (by decide)⟩

/-- C8: an insert whose key or value pointer is NULL, or whose key or
value type tag lies outside the supported enumerations, is rejected by
the argument guard with an invalid-argument error before anything runs:
`ht_insert` returns false with the table exactly unchanged (no capacity
check, no write), and `ht_add_pair` likewise returns a NULL value
unchanged. -/
theorem C8_invalid_arguments_rejected (callocOk strdupOk : Bool)
    (table : hash_table) (key : Option ht_key) (key_t : Int)
    (valueNull : Bool) (val_t : Int) (pm : pass_method)
    (hbad : key.isNone = true ∨ valueNull = true ∨
      ¬(key_t = 0 ∨ key_t = 1) ∨ ¬(0 ≤ val_t ∧ val_t ≤ 21)) :
    ht_insert callocOk strdupOk table key key_t valueNull val_t pm =
      { returnedFalse := true, table := table, probeStart := none } ∧
    (∀ (c s mk : Bool) (t2 : hash_table) (k2 : ht_key),
      ht_add_pair c s mk t2 k2 none = (.nullValue, t2)) := by
  constructor
  · have hchk : check_ht_pair_input key.isNone key_t valueNull val_t = false := by
      unfold check_ht_pair_input
      rcases hbad with h | h | h | h <;> split_ifs <;> simp_all
    unfold ht_insert
    rw [hchk]
    simp
  · intro c s mk t2 k2
    rfl

/-- Witness for `C8_invalid_arguments_rejected`: a NULL key pointer. -/
theorem C8_witness :
    ((none : Option ht_key).isNone = true ∨ false = true ∨
      ¬((0 : Int) = 0 ∨ (0 : Int) = 1) ∨ ¬((0 : Int) ≤ 0 ∧ (0 : Int) ≤ 21)) ∧
    (ht_insert true true freshTable none 0 false 0 .PASS_BY_COPY =
      { returnedFalse := true, table := freshTable, probeStart := none } ∧
    (∀ (c s mk : Bool) (t2 : hash_table) (k2 : ht_key),
      ht_add_pair c s mk t2 k2 none = (.nullValue, t2))) :=
  ⟨by decide,
    C8_invalid_arguments_rejected true true freshTable none 0 false 0
      .PASS_BY_COPY (by decide)⟩

/-- C9: `ht_create` (defaults: capacity 16, `max_load_factor` 0.75; the
min load factor 0.25 exists only as the compile-time macro
`HT_MIN_DEFAULT_LOAD_FACTOR`, the struct has no field for it) allocates
the table record and a zero-initialized 16-slot bucket array, with 16 a
nonzero power of two, and returns NULL whenever either allocation fails.
(The source checks `capacity == 0` and an overflow bound but — capacity
being hard-coded to 16 — can never see a zero or non-power-of-two
capacity, so those failure conditions are vacuous.) -/
theorem C9_create_defaults (sizeofElem : Nat) (hpos : 0 < sizeofElem)
    (hsane : sizeofElem ≤ 2 ^ 59) :
    ht_create sizeofElem true true = some freshTable ∧
    freshTable.capacity = HT_INITIAL_CAPACITY ∧
    HT_INITIAL_CAPACITY = 2 ^ 4 ∧
    freshTable.size = 0 ∧
    freshTable.max_load_factor = HT_MAX_DEFAULT_LOAD_FACTOR ∧
    freshTable.elements = List.replicate HT_INITIAL_CAPACITY none ∧
    (∀ c, ht_create sizeofElem false c = none) ∧
    ht_create sizeofElem true false = none := by
  have hguard : ¬(HT_INITIAL_CAPACITY = 0 ∨
      HT_INITIAL_CAPACITY > (2 ^ 64 - 1) / sizeofElem) := by
    push_neg
    refine ⟨by decide, ?_⟩
    have h31 : (2 ^ 64 - 1) / 2 ^ 59 ≤ (2 ^ 64 - 1) / sizeofElem :=
      Nat.div_le_div_left hsane hpos
    have : (2 ^ 64 - 1) / 2 ^ 59 = 31 := by decide
    rw [HT_INITIAL_CAPACITY]
    omega
  refine ⟨?_, rfl, by decide, rfl, rfl, rfl, ?_, ?_⟩
  · unfold ht_create
    rw [if_neg (by simp), if_neg hguard, if_neg (by simp)]
  · intro c
    unfold ht_create
    simp
  · unfold ht_create
    rw [if_neg (by simp), if_neg hguard]
    simp

/-- Witness for `C9_create_defaults` at `sizeof(ht_element) = 64`. -/
theorem C9_witness :
    (0 < 64 ∧ 64 ≤ 2 ^ 59) ∧
    (ht_create 64 true true = some freshTable ∧
    freshTable.capacity = HT_INITIAL_CAPACITY ∧
    HT_INITIAL_CAPACITY = 2 ^ 4 ∧
    freshTable.size = 0 ∧
    freshTable.max_load_factor = HT_MAX_DEFAULT_LOAD_FACTOR ∧
    freshTable.elements = List.replicate HT_INITIAL_CAPACITY none ∧
    (∀ c, ht_create 64 false c = none) ∧
    ht_create 64 true false = none) :=
  ⟨⟨by decide, by decide⟩, C9_create_defaults 64 (by decide) (by decide)⟩

/-- C10: whenever a key's digest masked with `capacity - 1` is 0 — i.e.
its initial bucket would be the perfectly valid slot 0 — `ht_insert`
treats the zero index as an error (`if (!tmp_hashed_key)`), reports a
hash-operation error and returns false without writing the entry; the
only state change is whatever the preceding capacity check did. -/
theorem C10_zero_index_rejected (callocOk strdupOk : Bool)
    (table : hash_table) (k : ht_key) (key_t val_t : Int) (pm : pass_method)
    (hkt : key_t = 0 ∨ key_t = 1) (hvt : 0 ≤ val_t ∧ val_t ≤ 21)
    (hzero : hash_the_key_at key_t k &&& (table.capacity - 1) = 0) :
    ht_insert callocOk strdupOk table (some k) key_t false val_t pm =
      { returnedFalse := true,
        table := ht_capacity_check callocOk strdupOk table .ADD,
        probeStart := none } := by
  have hchk : check_ht_pair_input (some k).isNone key_t false val_t = true := by
    unfold check_ht_pair_input
    rcases hkt with h | h <;> subst h <;> split_ifs <;> simp_all
  unfold ht_insert
  rw [hchk]
  simp only [Option.getD_some, Option.isNone_some]
  rw [if_neg (by simp)]
  rw [if_pos hzero]

/-- Witness for `C10_zero_index_rejected`: the int key 0 hashes to digest
0, so its masked bucket index is 0 on the fresh 16-slot table. -/
theorem C10_witness :
    (((0 : Int) = 0 ∨ (0 : Int) = 1) ∧ ((0 : Int) ≤ 0 ∧ (0 : Int) ≤ 21) ∧
      hash_the_key_at 0 (.intKey 0) &&& (freshTable.capacity - 1) = 0) ∧
    ht_insert true true freshTable (some (.intKey 0)) 0 false 0 .PASS_BY_COPY =
      { returnedFalse := true,
        table := ht_capacity_check true true freshTable .ADD,
        probeStart := none } :=
  ⟨⟨by decide, by decide, by decide⟩,
    C10_zero_index_rejected true true freshTable (.intKey 0) 0 0
      .PASS_BY_COPY (by decide) (by decide) (by decide)⟩

/-- C5: a `ht_add_pair` insert whose probe finds the key already present
(same type, same logical value) replaces the value in place: the old
value pointer is freed and the freshly allocated copy of the new value is
written into the same slot, while the stored key, the slot's occupancy,
the table's `size` and `capacity`, and every other slot are unchanged
(last-write-wins). -/
theorem C5_replace_in_place (callocOk strdupOk : Bool) (table : hash_table)
    (key : ht_key) (v : List Nat) (j : Nat)
    (hc : 0 < table.capacity)
    (hprobe : probeForAdd table.elements table.capacity key
      (hash_the_key key % table.capacity) = .replaceAt j) :
    ∃ e, table.elements.getD j none = some e ∧
      e.key.tag = htKeyTag key ∧
      logicalKey e.key = key ∧
      ht_add_pair callocOk strdupOk true table key (some v) =
        (.done, { table with
          elements := table.elements.set j (some { e with value := some v }) }) ∧
      (∀ i, i ≠ j →
        (table.elements.set j (some { e with value := some v })).getD i none =
          table.elements.getD i none) ∧
      (table.elements.set j (some { e with value := some v })).length =
        table.elements.length := by
  obtain ⟨hjlt, hcls⟩ := probeForAdd_replaceAt hc hprobe
  obtain ⟨e, hslot, htag, hlog⟩ := classifySlot_replace hcls
  refine ⟨e, hslot, htag, hlog, ?_, ?_, List.length_set ..⟩
  · simp only [ht_add_pair, hprobe, hslot]
    rfl
  · intro i hne
    rw [List.getD_eq_getElem?_getD, List.getD_eq_getElem?_getD,
      List.getElem?_set_ne (by omega)]


/-- Witness for `C5_replace_in_place`: re-inserting key 5 with value
`[9]` replaces the value in slot 13 of `tC5`. -/
theorem C5_witness :
    (0 < tC5.capacity ∧
      probeForAdd tC5.elements tC5.capacity (.intKey 5)
        (hash_the_key (.intKey 5) % tC5.capacity) = .replaceAt 13) ∧
    (∃ e, tC5.elements.getD 13 none = some e ∧
      e.key.tag = htKeyTag (.intKey 5) ∧
      logicalKey e.key = .intKey 5 ∧
      ht_add_pair true true true tC5 (.intKey 5) (some [9]) =
        (.done, { tC5 with
          elements := tC5.elements.set 13 (some { e with value := some [9] }) }) ∧
      (∀ i, i ≠ 13 →
        (tC5.elements.set 13 (some { e with value := some [9] })).getD i none =
          tC5.elements.getD i none) ∧
      (tC5.elements.set 13 (some { e with value := some [9] })).length =
        tC5.elements.length) :=
  ⟨⟨by decide, by decide⟩,
    C5_replace_in_place true true tC5 (.intKey 5) [9] 13 (by decide) (by decide)⟩


/-- Witness for `C6_resize_preserves_pairs_leaks_old_strings`: growing
`tC6` from 16 to 32 slots preserves both stored pairs, and the only
`free` performed is that of the old element array. -/
theorem C6_witness :
    (tC6.capacity = 2 ^ 4 ∧ tC6.elements.length = tC6.capacity ∧
      ¬(capacity_check_call_type.ADD = .ADD ∧ tC6.capacity > (2 ^ 64 - 1) / 2) ∧
      ¬(capacity_check_call_type.ADD = .DELETE ∧ tC6.capacity ≤ HT_INITIAL_CAPACITY) ∧
      countSome tC6.elements ≤ resizeTarget tC6.capacity .ADD) ∧
    ((∃ t', resize_ht true true tC6 .ADD = (.completed, t') ∧
      t'.capacity = resizeTarget tC6.capacity .ADD ∧
      t'.size = tC6.size ∧
      t'.max_load_factor = tC6.max_load_factor ∧
      t'.elements.length = t'.capacity ∧
      entries t'.elements = entries tC6.elements) ∧
    resize_ht_free_calls true true tC6 .ADD = [.oldElementsArray]) :=
  ⟨⟨by decide, by decide, by decide, by decide, by decide⟩,
    C6_resize_preserves_pairs_leaks_old_strings 4 tC6 .ADD (by decide) (by decide)
      (by decide) (by decide) (by decide)⟩

/-- C6 counterexample: growing `tC6` — whose slot 5 holds a *string* key
— completes and re-duplicates that key into the new array, yet the
complete list of `free` calls the resize performs is
`[free(old_elements)]`: no `oldStringKeyDup` release appears, so the old
string duplicate is never freed, refuting the claim's "the old duplicate
freed". -/
theorem C6_counterexample_old_string_dup_not_freed :
    (resize_ht true true tC6 .ADD).1 = .completed ∧
    ((tC6.elements.getD 5 none).map fun e => e.key.tag) = some .strK ∧
    resize_ht_free_calls true true tC6 .ADD = [.oldElementsArray] :=
  ⟨rfl, by decide, rfl⟩


/-- C3 counterexample: probing bucket 3 of `tC3` with the *int* key 5,
`check_new_element_hash` — which never examines the stored key's type
tag — returns `OLD_PAIR_NEW_VALUE` (existing key, replace value) even
though the occupied slot holds a key of a different type (`HT_STR_KEY`).
This refutes "an occupied slot holding a key of a different type is never
classified as a match". -/
theorem C3_counterexample_cross_type_match :
    check_new_element_hash tC3 3 .intK 5 none = .OLD_PAIR_NEW_VALUE ∧
    ((tC3.elements.getD 3 none).map fun e => e.key.tag) = some .strK ∧
    key_tag.strK ≠ key_tag.intK := by
  exact ⟨rfl, by decide, by decide⟩

/-- C3 (amended): `ht_add_pair`'s collision loop classifies candidate
buckets exactly as the claim states — empty is fresh; an occupied slot
with a differing stored key type, or an equal type but differing logical
value, is a collision; an equal type and value is a replacement.
`check_new_element_hash` (`ht_insert`'s classifier), however, never
examines the stored key's type tag: for an int probe it compares the
stored union's `as_int` view directly, so an occupied slot of different
type is classified a match exactly when that reinterpreted view equals
the probe value. -/
theorem C3_classification_amended (key : ht_key) :
    classifySlot none key = .fresh ∧
    (∀ e : ht_element, e.key.tag ≠ htKeyTag key →
      classifySlot (some e) key = .collision) ∧
    (∀ (e : ht_element) (i : Int), key = .intKey i → e.key.tag = .intK →
      classifySlot (some e) key =
        if e.key.intView = i then .replace else .collision) ∧
    (∀ (e : ht_element) (s : List Nat), key = .strKey s → e.key.tag = .strK →
      classifySlot (some e) key =
        if e.key.strView = some s then .replace else .collision) ∧
    (∀ (t : hash_table) (h : Nat) (i : Int) (e : ht_element)
        (p : Option (List Nat)),
      t.elements.getD (h &&& (t.capacity - 1)) none = some e →
      check_new_element_hash t h .intK i p =
        if e.key.intView = i then .OLD_PAIR_NEW_VALUE
        else .NEW_PAIR_REPEATED_HASH) := by
  refine ⟨rfl, ?_, ?_, ?_, ?_⟩
  · intro e hne
    simp only [classifySlot]
    rw [if_pos hne]
  · intro e i hk htag
    subst hk
    simp only [classifySlot]
    rw [if_neg (by simp [htag, htKeyTag])]
  · intro e s hk htag
    subst hk
    simp only [classifySlot]
    rw [if_neg (by simp [htag, htKeyTag])]
  · intro t h i e p hslot
    simp only [check_new_element_hash, hslot]




/-- Witness for `C3_classification_amended` at concrete inputs. -/
theorem C3_amended_witness :
    classifySlot none (.intKey 7) = .fresh ∧
    classifySlot (some eC3str) (.intKey 7) = .collision ∧
    classifySlot (some eC3int) (.intKey 7) =
      (if eC3int.key.intView = 7 then .replace else .collision) ∧
    classifySlot (some eC3str) (.strKey [121]) =
      (if eC3str.key.strView = some [121] then .replace else .collision) ∧
    check_new_element_hash tC3w 2 .intK 7 none =
      (if eC3str.key.intView = 7 then .OLD_PAIR_NEW_VALUE
        else .NEW_PAIR_REPEATED_HASH) :=
  ⟨(C3_classification_amended (.intKey 7)).1,
    (C3_classification_amended (.intKey 7)).2.1 eC3str (by decide),
    (C3_classification_amended (.intKey 7)).2.2.1 eC3int 7 rfl (by decide),
    (C3_classification_amended (.strKey [121])).2.2.2.1 eC3str [121] rfl (by decide),
    (C3_classification_amended (.intKey 7)).2.2.2.2 tC3w 2 7 eC3str none (by decide)⟩
